import Mathlib

/-
Verification of the build-and-push deployment pipeline (src/main.py, src/config.py).

The embedding models:
  * the Firestore status ledger as an association list of fields
    (`Doc`), with Python-dict update semantics and Firestore
    merge-upsert semantics (`dict_update`);
  * `update_firestore_status` as a pure document transformer;
  * the zip archiver (`zip_directory`) over an inductive directory tree,
    mirroring the `os.walk` traversal;
  * the orchestrated task `build_and_push_task` as a state-passing
    function over an environment of stage outcomes (which stages raise,
    whether the Dockerfile is present, the remote build verdict), which
    accumulates every externally visible effect: attempted status
    writes, the ledger document, filesystem artifacts, storage uploads
    and Cloud Build submissions;
  * the `/deploy` request handler as a function of the parsed JSON body.
-/

/-- A scalar Firestore field value: a string, or a timestamp. -/
inductive FSVal where
  | str : String → FSVal
  | time : Nat → FSVal
deriving DecidableEq, Repr

/-- A Firestore document (and also a Python dict of metadata):
an ordered association list of fields.  Keys are unique in every
document the program builds. -/
abbrev Doc := List (String × FSVal)

/-- Field lookup in a document (first match). -/
def getVal : Doc → String → Option FSVal
  | [], _ => none
  | p :: d, k => if p.1 = k then some p.2 else getVal d k

/-- Python dict assignment `d[k] = v`: overwrite the value in place when
the key exists (insertion order kept), otherwise append the new pair. -/
def setKey (d : Doc) (k : String) (v : FSVal) : Doc :=
  if (getVal d k).isSome then d.map (fun p => if p.1 = k then (k, v) else p)
  else d ++ [(k, v)]

/-- Python `d.update(m)` iterated left to right; also the semantics of a
Firestore `set(data, merge=True)` applied to an existing document (fields
of the payload overwrite, all other fields persist). -/
def dict_update : Doc → Doc → Doc
  | d, [] => d
  | d, p :: m => dict_update (setKey d p.1 p.2) m

/-- The payload assembled by `update_firestore_status` (src/main.py:43-48):
`{"status": status, "timestamp": now}` then `data.update(metadata)` when
the metadata dict is non-empty (`if metadata:`). -/
def write_data (status : String) (metadata : Doc) (now : Nat) : Doc :=
  let data : Doc := [("status", FSVal.str status), ("timestamp", FSVal.time now)]
  if metadata.isEmpty then data else dict_update data metadata

/-- `update_firestore_status` (src/main.py:37-53) as a transformer of the
document stored under the request id: `doc_ref.set(data, merge=True)`.
The surrounding try/except is modelled at the call sites: a failed write
leaves the document unchanged. -/
def update_firestore_status (doc : Doc) (status : String) (metadata : Doc) (now : Nat) : Doc :=
  dict_update doc (write_data status metadata now)

/-- The process configuration (src/config.py). -/
structure Settings where
  gcp_project_id : String
  gcp_region : String
  gar_repository_name : String
  gcp_storage_bucket : String
deriving Repr

/-- Python `s.split("/")`: cut the character list at every `/`.  With an
explicit separator Python keeps empty pieces, and the result is never
empty (splitting the empty string gives `[""]`). -/
def splitOnSlash : List Char → List (List Char)
  | [] => [[]]
  | c :: rest =>
    if c = '/' then [] :: splitOnSlash rest
    else
      match splitOnSlash rest with
      | [] => [[c]]
      | seg :: segs => (c :: seg) :: segs

/-- The final `/`-separated segment of a URL, as computed by Python
`github_url.split("/")[-1]` (src/main.py:105). -/
def lastSegment (s : String) : String :=
  String.mk ((splitOnSlash s.data).getLastD s.data)

/-- Python `seg.replace(".git", "")` (src/main.py:105): scan left to
right and delete every non-overlapping occurrence of `.git`. -/
def removeGitAux : List Char → List Char
  | '.' :: 'g' :: 'i' :: 't' :: rest => removeGitAux rest
  | c :: rest => c :: removeGitAux rest
  | [] => []

/-- String form of `removeGitAux`. -/
def replace_git (s : String) : String := String.mk (removeGitAux s.data)

/-- `repo_name = github_url.split("/")[-1].replace(".git", "")`
(src/main.py:105). -/
def repo_name (github_url : String) : String := replace_git (lastSegment github_url)

/-- The image tag f-string of src/main.py:106. -/
def image_tag (s : Settings) (github_url request_id : String) : String :=
  s.gcp_region ++ "-docker.pkg.dev/" ++ s.gcp_project_id ++ "/" ++
    s.gar_repository_name ++ "/" ++ repo_name github_url ++ ":" ++ request_id

/-- The staged object path `f"source/{request_id}.zip"` (src/main.py:97). -/
def blob_name (request_id : String) : String := "source/" ++ request_id ++ ".zip"

/-- One build step of the submitted build specification. -/
structure BuildStep where
  name : String
  args : List String
deriving DecidableEq, Repr

/-- The Cloud Build specification assembled at src/main.py:108-128:
steps, a storage source (bucket and object), and output images. -/
structure CloudBuild where
  steps : List BuildStep
  source_bucket : String
  source_object : String
  images : List String
deriving DecidableEq, Repr

/-- The build specification the task submits (src/main.py:108-128): two
hard-coded docker steps, the staged object as source, the image tag as
the output image. -/
def cloud_build_spec (s : Settings) (github_url request_id : String) : CloudBuild :=
  let tag := image_tag s github_url request_id
  { steps := [{ name := "gcr.io/cloud-builders/docker", args := ["build", "-t", tag, "."] },
              { name := "gcr.io/cloud-builders/docker", args := ["push", tag] }],
    source_bucket := s.gcp_storage_bucket,
    source_object := blob_name request_id,
    images := [tag] }

example : repo_name "https://example.com/org/app.git" = "app" := by decide

example : repo_name "https://github.com/u/u.github.io" = "uhub.io" := by decide

/-
The archiver.  A directory tree holds regular files (name and byte
content) and named subdirectories.  The two types are mutually
inductive so that all recursions stay structural.
-/

mutual
/-- A directory: its regular files and its subdirectories. -/
inductive FSTree where
  | node : List (String × List Nat) → FSDirs → FSTree

/-- A list of named subdirectories. -/
inductive FSDirs where
  | nil : FSDirs
  | cons : String → FSTree → FSDirs → FSDirs
end

mutual
/-- `os.walk` (top-down): yields, for the root and then for every
subdirectory in order, the directory path (as a list of components)
paired with the files directly inside it. -/
def walk (base : List String) : FSTree → List (List String × List (String × List Nat))
  | .node files dirs => (base, files) :: walkDirs base dirs

def walkDirs (base : List String) : FSDirs → List (List String × List (String × List Nat))
  | .nil => []
  | .cons d t rest => walk (base ++ [d]) t ++ walkDirs base rest
end

/-- `os.path.relpath(p, base)` for the only shape `zip_directory` ever
needs: every root produced by `os.walk(folder)` extends `folder`, and
the relative path is the remaining components. -/
def relpath (p base : List String) : List String := p.drop base.length

/-- `zip_directory` (src/main.py:28-35): walk the tree and record one
archive entry per regular file, named by its path relative to
`folder_path`, with the file bytes as content. -/
def zip_directory (folder_path : List String) (tree : FSTree) :
    List (List String × List Nat) :=
  (walk folder_path tree).flatMap fun rf =>
    rf.2.map fun fc => (relpath (rf.1 ++ [fc.1]) folder_path, fc.2)

mutual
/-- Specification-side description: the set of regular files under a
tree, each with its path relative to the tree root and its bytes. -/
def files_under : FSTree → List (List String × List Nat)
  | .node files dirs => (files.map fun fc => ([fc.1], fc.2)) ++ files_under_dirs dirs

def files_under_dirs : FSDirs → List (List String × List Nat)
  | .nil => []
  | .cons d t rest =>
      ((files_under t).map fun pc => (d :: pc.1, pc.2)) ++ files_under_dirs rest
end

/-
The orchestrated task.  `Env` fixes the outcome of every external
interaction of one run: which stages raise, whether the cloned tree has
a Dockerfile, the remote build verdict, which ledger writes fail, and
the wall clock.  `Effects` accumulates everything the task does.
-/

/-- Outcomes of the external world for one run of the task. -/
structure Env where
  cloneFails : Bool
  dockerfilePresent : Bool
  zipFails : Bool
  uploadFails : Bool
  createBuildFails : Bool
  awaitFails : Bool
  buildSucceeded : Bool
  blobDeleteFails : Bool
  errMsg : String
  buildId : String
  buildStatusText : String
  ledgerFailAt : Nat → Bool
  timeAt : Nat → Nat

/-- Everything a run of the task has done so far. -/
structure Effects where
  doc : Doc
  writes : List (String × Doc)
  tempDirExists : Bool
  archiveExists : Bool
  blobExists : Bool
  stageCalls : Nat
  submitCalls : Nat
  stagedUploads : List (String × String)
  submittedBuilds : List CloudBuild

def init_effects : Effects :=
  { doc := [], writes := [], tempDirExists := false, archiveExists := false,
    blobExists := false, stageCalls := 0, submitCalls := 0,
    stagedUploads := [], submittedBuilds := [] }

/-- One call of `update_firestore_status` from inside the run: the
attempted write is recorded, and the document changes exactly when the
ledger backend does not raise (the try/except of src/main.py:39-53
swallows the failure, so nothing else of the state is touched). -/
def status_write (env : Env) (e : Effects) (status : String) (metadata : Doc) : Effects :=
  { e with
    writes := e.writes ++ [(status, metadata)],
    doc := if env.ledgerFailAt e.writes.length then e.doc
           else update_firestore_status e.doc status metadata (env.timeAt e.writes.length) }

/-- How the `try` block of src/main.py:71-155 ends. -/
inductive TryExit where
  | normal : TryExit
  | earlyReturn : TryExit
  | raised : String → TryExit

/-- The `try` block of `build_and_push_task` (src/main.py:71-155):
makedirs, clone, Dockerfile gate, zip, upload, Cloud Build submission,
wait, terminal status write, best-effort blob delete. -/
def try_body (s : Settings) (env : Env) (github_url request_id : String)
    (e0 : Effects) : Effects × TryExit :=
  -- os.makedirs(temp_dir, exist_ok=True)
  let e := { e0 with tempDirExists := true }
  -- git.Repo.clone_from(github_url, temp_dir)
  if env.cloneFails then (e, .raised env.errMsg) else
  -- if not os.path.exists(os.path.join(temp_dir, "Dockerfile")): record FAILURE and return
  if env.dockerfilePresent then
    -- zip_directory(temp_dir, archive_path)
    if env.zipFails then (e, .raised env.errMsg) else
    let e := { e with archiveExists := true }
    -- blob.upload_from_filename(archive_path)
    let e := { e with stageCalls := e.stageCalls + 1 }
    if env.uploadFails then (e, .raised env.errMsg) else
    let e := { e with blobExists := true,
                      stagedUploads := e.stagedUploads ++ [(s.gcp_storage_bucket, blob_name request_id)] }
    -- build_client.create_build(project_id=..., build=build)
    let e := { e with submitCalls := e.submitCalls + 1,
                      submittedBuilds := e.submittedBuilds ++ [cloud_build_spec s github_url request_id] }
    if env.createBuildFails then (e, .raised env.errMsg) else
    -- operation.result()
    if env.awaitFails then (e, .raised env.errMsg) else
    -- terminal status write
    let e :=
      if env.buildSucceeded then
        status_write env e "SUCCESS"
          [("image_tag", FSVal.str (image_tag s github_url request_id)),
           ("build_id", FSVal.str env.buildId)]
      else
        status_write env e "FAILURE"
          [("build_id", FSVal.str env.buildId),
           ("error", FSVal.str ("Cloud Build failed with status: " ++ env.buildStatusText))]
    -- try: blob.delete() except: log  (best effort)
    let e := if env.blobDeleteFails then e else { e with blobExists := false }
    (e, .normal)
  else
    (status_write env e "FAILURE" [("error", FSVal.str "No Dockerfile found")], .earlyReturn)

/-- The `except` clause of src/main.py:157-159: an exception escaping
the `try` block is recorded as a FAILURE with the error text. -/
def run_except (env : Env) (p : Effects × TryExit) : Effects :=
  match p.2 with
  | .raised msg => status_write env p.1 "FAILURE" [("error", FSVal.str msg)]
  | _ => p.1

/-- The `finally` clause of src/main.py:160-165: remove the working
directory and the archive file when they exist. -/
def finally_cleanup (e : Effects) : Effects :=
  let e1 := if e.tempDirExists then { e with tempDirExists := false } else e
  if e1.archiveExists then { e1 with archiveExists := false } else e1

/-- `build_and_push_task` (src/main.py:55-165): the IN_PROGRESS write,
then the try/except/finally body. -/
def build_and_push_task (s : Settings) (env : Env)
    (github_url request_id workflow_name user_id : String) : Effects :=
  let e0 := status_write env init_effects "IN_PROGRESS"
    [("workflow_name", FSVal.str workflow_name), ("user_id", FSVal.str user_id)]
  finally_cleanup (run_except env (try_body s env github_url request_id e0))

/-
The `/deploy` request handler (src/main.py:167-196).  The parsed JSON
body is `none` when the request carries no JSON, otherwise a dict whose
string fields are the ones the handler reads.
-/

/-- What one call of `deploy` does: the HTTP status code, the error
body of a rejection, the attempted PENDING ledger writes
(request id, status, metadata), and the background tasks started
(github_url, request_id, workflow_name, user_id). -/
structure DeployOutcome where
  statusCode : Nat
  errorBody : Option String
  pendingWrites : List (String × String × Doc)
  started : List (String × String × String × String)
deriving DecidableEq, Repr

/-- `deploy` (src/main.py:167-196).  `request_id` is the value
`str(uuid.uuid4())` would produce, passed in as a parameter; the
handler only reaches the point that generates it after the body check
(`if not data or 'github_url' not in data`) has passed.  A missing
body is `none`; Python `not data` is additionally true for the empty
dict. -/
def deploy (body : Option (List (String × String))) (request_id : String) : DeployOutcome :=
  match body with
  | none => { statusCode := 400, errorBody := some "Missing github_url",
              pendingWrites := [], started := [] }
  | some data =>
    if data.isEmpty then
      { statusCode := 400, errorBody := some "Missing github_url",
        pendingWrites := [], started := [] }
    else
      match data.lookup "github_url" with
      | none => { statusCode := 400, errorBody := some "Missing github_url",
                  pendingWrites := [], started := [] }
      | some github_url =>
        let workflow_name := (data.lookup "workflow_name").getD "unnamed"
        let user_id := (data.lookup "userId").getD "anonymous"
        { statusCode := 200,
          errorBody := none,
          pendingWrites := [(request_id, "PENDING",
            [("request_id", FSVal.str request_id),
             ("github_url", FSVal.str github_url),
             ("workflow_name", FSVal.str workflow_name),
             ("user_id", FSVal.str user_id)])],
          started := [(github_url, request_id, workflow_name, user_id)] }

/-
Concrete instances used by witnesses and counterexamples.
-/

def settings0 : Settings :=
  { gcp_project_id := "proj", gcp_region := "eu", gar_repository_name := "repo",
    gcp_storage_bucket := "bucket" }

/-- A run in which every external interaction succeeds and the remote
build reports success. -/
def env0 : Env :=
  { cloneFails := false, dockerfilePresent := true, zipFails := false,
    uploadFails := false, createBuildFails := false, awaitFails := false,
    buildSucceeded := true, blobDeleteFails := false,
    errMsg := "boom", buildId := "bid-1", buildStatusText := "TIMEOUT",
    ledgerFailAt := fun _ => false, timeAt := fun _ => 0 }

/-- A run whose cloned tree has no Dockerfile. -/
def env_nodocker : Env := { env0 with dockerfilePresent := false }

/-- A terminal status string. -/
def terminal_status (st : String) : Prop := st = "SUCCESS" ∨ st = "FAILURE"

/-
Helper lemmas about the task.
-/

theorem finally_cleanup_clears (e : Effects) :
    (finally_cleanup e).tempDirExists = false ∧ (finally_cleanup e).archiveExists = false := by
  rcases e with ⟨doc, w, td, ar, bl, sc, su, up, sb⟩
  cases td <;> cases ar <;> simp [finally_cleanup]

/-- Every run writes IN_PROGRESS first and then exactly one terminal
status, and nothing afterwards. -/
theorem task_writes_shape (s : Settings) (env : Env)
    (github_url request_id workflow_name user_id : String) :
    ∃ t md,
      (build_and_push_task s env github_url request_id workflow_name user_id).writes =
        [("IN_PROGRESS",
          [("workflow_name", FSVal.str workflow_name), ("user_id", FSVal.str user_id)]),
         (t, md)] ∧
      (t = "SUCCESS" ∨ t = "FAILURE") := by
  rcases env with ⟨c, df, z, u, cb, aw, bs, bd, em, bi, bst, lf, ta⟩
  cases c <;> cases df <;> cases z <;> cases u <;> cases cb <;> cases aw <;>
    cases bs <;> cases bd <;>
    first
      | exact ⟨_, _, rfl, Or.inl rfl⟩
      | exact ⟨_, _, rfl, Or.inr rfl⟩

/-- Claim C7: on every exit from the pipeline task — success, recorded
failure, or exception at any stage, including the early return taken
when the Dockerfile is missing — the local working directory and the
local archive file are removed by the finally block. -/
theorem C7_local_cleanup_every_exit (s : Settings) (env : Env)
    (github_url request_id workflow_name user_id : String) :
    (build_and_push_task s env github_url request_id workflow_name user_id).tempDirExists = false ∧
    (build_and_push_task s env github_url request_id workflow_name user_id).archiveExists = false := by
  unfold build_and_push_task
  exact finally_cleanup_clears _

/-- Claim C1: when the clone succeeds but the tree has no Dockerfile,
the task records IN_PROGRESS and then a terminal FAILURE with metadata
error "No Dockerfile found", and stops: nothing is staged and no build
is submitted (stage and submit call counts are zero). -/
theorem C1_missing_dockerfile_terminal_failure (s : Settings) (env : Env)
    (github_url request_id workflow_name user_id : String)
    (hclone : env.cloneFails = false) (hdf : env.dockerfilePresent = false) :
    (build_and_push_task s env github_url request_id workflow_name user_id).writes =
      [("IN_PROGRESS",
        [("workflow_name", FSVal.str workflow_name), ("user_id", FSVal.str user_id)]),
       ("FAILURE", [("error", FSVal.str "No Dockerfile found")])] ∧
    (build_and_push_task s env github_url request_id workflow_name user_id).stageCalls = 0 ∧
    (build_and_push_task s env github_url request_id workflow_name user_id).submitCalls = 0 ∧
    (build_and_push_task s env github_url request_id workflow_name user_id).stagedUploads = [] ∧
    (build_and_push_task s env github_url request_id workflow_name user_id).submittedBuilds = [] := by
  rcases env with ⟨c, df, z, u, cb, aw, bs, bd, em, bi, bst, lf, ta⟩
  cases c
  · cases df
    · exact ⟨rfl, rfl, rfl, rfl, rfl⟩
    · exact absurd hdf (by simp)
  · exact absurd hclone (by simp)

theorem C1_missing_dockerfile_terminal_failure_witness :
    (build_and_push_task settings0 env_nodocker "https://example.com/org/app.git" "rid" "wf" "uid").writes =
      [("IN_PROGRESS", [("workflow_name", FSVal.str "wf"), ("user_id", FSVal.str "uid")]),
       ("FAILURE", [("error", FSVal.str "No Dockerfile found")])] ∧
    (build_and_push_task settings0 env_nodocker "https://example.com/org/app.git" "rid" "wf" "uid").stageCalls = 0 ∧
    (build_and_push_task settings0 env_nodocker "https://example.com/org/app.git" "rid" "wf" "uid").submitCalls = 0 ∧
    (build_and_push_task settings0 env_nodocker "https://example.com/org/app.git" "rid" "wf" "uid").stagedUploads = [] ∧
    (build_and_push_task settings0 env_nodocker "https://example.com/org/app.git" "rid" "wf" "uid").submittedBuilds = [] :=
  C1_missing_dockerfile_terminal_failure settings0 env_nodocker
    "https://example.com/org/app.git" "rid" "wf" "uid" rfl rfl

/-- Claim C2 counterexample: when the Cloud Build submission raises
after the archive has been staged, the run records a terminal FAILURE
but the staged object is never deleted, so it is not true that the
staged object is always reclaimed by the time a terminal status is
recorded. -/
theorem C2_staged_object_not_reclaimed_cex :
    (build_and_push_task settings0 { env0 with createBuildFails := true }
        "https://example.com/org/app.git" "rid" "wf" "uid").blobExists = true ∧
    ((build_and_push_task settings0 { env0 with createBuildFails := true }
        "https://example.com/org/app.git" "rid" "wf" "uid").writes.getD 1 ("", [])).1 = "FAILURE" :=
  ⟨rfl, rfl⟩

/-- Claim C2 as amended: the working directory and the local archive
are always deleted by the end of the run; the staged object is deleted
exactly when it was staged and the run then reached a terminal remote
build state and the best-effort delete did not fail.  On failures after
staging but before the remote build concludes, the staged object
remains. -/
theorem C2_artifact_cleanup_amended (s : Settings) (env : Env)
    (github_url request_id workflow_name user_id : String) :
    (build_and_push_task s env github_url request_id workflow_name user_id).tempDirExists = false ∧
    (build_and_push_task s env github_url request_id workflow_name user_id).archiveExists = false ∧
    (build_and_push_task s env github_url request_id workflow_name user_id).blobExists =
      (!env.cloneFails && env.dockerfilePresent && !env.zipFails && !env.uploadFails &&
        (env.createBuildFails || env.awaitFails || env.blobDeleteFails)) := by
  rcases env with ⟨c, df, z, u, cb, aw, bs, bd, em, bi, bst, lf, ta⟩
  cases c <;> cases df <;> cases z <;> cases u <;> cases cb <;> cases aw <;>
    cases bs <;> cases bd <;> exact ⟨rfl, rfl, rfl⟩

/-- Claim C5: status writes of one task run are monotonic: once the
task has written a terminal status (SUCCESS or FAILURE) at position
`i` of its write sequence, every later write carries the same status. -/
theorem C5_status_monotonic (s : Settings) (env : Env)
    (github_url request_id workflow_name user_id : String) (i j : Nat)
    (hij : i ≤ j)
    (hj : j < (build_and_push_task s env github_url request_id workflow_name user_id).writes.length)
    (hterm : terminal_status
      (((build_and_push_task s env github_url request_id workflow_name user_id).writes.getD i ("", [])).1)) :
    ((build_and_push_task s env github_url request_id workflow_name user_id).writes.getD j ("", [])).1 =
    ((build_and_push_task s env github_url request_id workflow_name user_id).writes.getD i ("", [])).1 := by
  obtain ⟨t, md, hw, ht⟩ := task_writes_shape s env github_url request_id workflow_name user_id
  rw [hw] at hj hterm ⊢
  have hj2 : j < 2 := by simpa using hj
  have hi2 : i < 2 := lt_of_le_of_lt hij hj2
  interval_cases i <;> interval_cases j
  · exact absurd hterm (by rintro (h | h) <;> simp at h)
  · exact absurd hterm (by rintro (h | h) <;> simp at h)
  · rfl

theorem C5_status_monotonic_witness :
    (1 : Nat) ≤ 1 ∧
    1 < (build_and_push_task settings0 env_nodocker "u" "r" "w" "x").writes.length ∧
    terminal_status
      (((build_and_push_task settings0 env_nodocker "u" "r" "w" "x").writes.getD 1 ("", [])).1) ∧
    ((build_and_push_task settings0 env_nodocker "u" "r" "w" "x").writes.getD 1 ("", [])).1 =
      ((build_and_push_task settings0 env_nodocker "u" "r" "w" "x").writes.getD 1 ("", [])).1 :=
  ⟨le_refl 1, by decide, Or.inr rfl,
    C5_status_monotonic settings0 env_nodocker "u" "r" "w" "x" 1 1 (le_refl 1)
      (by decide) (Or.inr rfl)⟩

/-- The externally visible outcome of a run: everything in `Effects`
except the ledger document itself (whose content is what a write
failure loses). -/
def Effects.outcome (e : Effects) :
    List (String × Doc) × Bool × Bool × Bool × Nat × Nat ×
      List (String × String) × List CloudBuild :=
  (e.writes, e.tempDirExists, e.archiveExists, e.blobExists,
   e.stageCalls, e.submitCalls, e.stagedUploads, e.submittedBuilds)

/-- Claim C6: a failing status-ledger write is swallowed inside
`update_firestore_status`; whichever writes the ledger backend fails,
the run takes the same control flow and produces the same outcome —
the same attempted write sequence, call counts, artifacts and
submissions — as when every write succeeds. -/
theorem C6_ledger_failures_do_not_change_outcome (s : Settings) (env : Env)
    (f g : Nat → Bool) (github_url request_id workflow_name user_id : String) :
    Effects.outcome
      (build_and_push_task s { env with ledgerFailAt := f }
        github_url request_id workflow_name user_id) =
    Effects.outcome
      (build_and_push_task s { env with ledgerFailAt := g }
        github_url request_id workflow_name user_id) := by
  rcases env with ⟨c, df, z, u, cb, aw, bs, bd, em, bi, bst, lf, ta⟩
  cases c <;> cases df <;> cases z <;> cases u <;> cases cb <;> cases aw <;>
    cases bs <;> cases bd <;> rfl

/-- The reading of claim C3 under which the submitted step list is the
caller-provided sequence, passed through opaquely: whatever step
sequence the caller supplies, the submitted specification declares
exactly it. -/
def steps_exactly_caller_provided : Prop :=
  ∀ (callerSteps : List BuildStep) (s : Settings) (github_url request_id : String),
    (cloud_build_spec s github_url request_id).steps = callerSteps

/-- Claim C3 counterexample: the submitted steps are not a caller
pass-through.  Neither the HTTP body nor the task arguments carry a
step sequence, and the submitted specification always declares the two
core-constructed docker steps, so it cannot equal an arbitrary
caller-provided sequence (here: the empty one). -/
theorem C3_steps_not_caller_provided_cex : ¬ steps_exactly_caller_provided := by
  intro h
  have h1 := h [] settings0 "https://example.com/org/app.git" "rid"
  exact absurd h1 (by decide)

/-- Claim C3 as amended: the submitted build specification references
the staged object (the configured bucket and the request-scoped path
`source/{request_id}.zip`) as its sole source and declares the image
tag as the expected output artifact, but its step list is not
caller-provided: it is the fixed two-step sequence constructed by the
task itself — `docker build -t {image_tag} .` then
`docker push {image_tag}`. -/
theorem C3_build_spec_amended (s : Settings) (env : Env)
    (github_url request_id workflow_name user_id : String)
    (h1 : env.cloneFails = false) (h2 : env.dockerfilePresent = true)
    (h3 : env.zipFails = false) (h4 : env.uploadFails = false) :
    (build_and_push_task s env github_url request_id workflow_name user_id).submittedBuilds =
      [cloud_build_spec s github_url request_id] ∧
    (build_and_push_task s env github_url request_id workflow_name user_id).stagedUploads =
      [(s.gcp_storage_bucket, blob_name request_id)] ∧
    (cloud_build_spec s github_url request_id).source_bucket = s.gcp_storage_bucket ∧
    (cloud_build_spec s github_url request_id).source_object = blob_name request_id ∧
    (cloud_build_spec s github_url request_id).images = [image_tag s github_url request_id] ∧
    (cloud_build_spec s github_url request_id).steps =
      [{ name := "gcr.io/cloud-builders/docker",
         args := ["build", "-t", image_tag s github_url request_id, "."] },
       { name := "gcr.io/cloud-builders/docker",
         args := ["push", image_tag s github_url request_id] }] := by
  rcases env with ⟨c, df, z, u, cb, aw, bs, bd, em, bi, bst, lf, ta⟩
  cases c
  · cases df
    · exact absurd h2 (by simp)
    · cases z
      · cases u
        · cases cb <;> cases aw <;> cases bs <;> cases bd <;>
            exact ⟨rfl, rfl, rfl, rfl, rfl, rfl⟩
        · exact absurd h4 (by simp)
      · exact absurd h3 (by simp)
  · exact absurd h1 (by simp)

theorem C3_build_spec_amended_witness :
    (build_and_push_task settings0 env0 "https://example.com/org/app.git" "rid" "wf" "uid").submittedBuilds =
      [cloud_build_spec settings0 "https://example.com/org/app.git" "rid"] ∧
    (build_and_push_task settings0 env0 "https://example.com/org/app.git" "rid" "wf" "uid").stagedUploads =
      [(settings0.gcp_storage_bucket, blob_name "rid")] ∧
    (cloud_build_spec settings0 "https://example.com/org/app.git" "rid").source_bucket =
      settings0.gcp_storage_bucket ∧
    (cloud_build_spec settings0 "https://example.com/org/app.git" "rid").source_object =
      blob_name "rid" ∧
    (cloud_build_spec settings0 "https://example.com/org/app.git" "rid").images =
      [image_tag settings0 "https://example.com/org/app.git" "rid"] ∧
    (cloud_build_spec settings0 "https://example.com/org/app.git" "rid").steps =
      [{ name := "gcr.io/cloud-builders/docker",
         args := ["build", "-t", image_tag settings0 "https://example.com/org/app.git" "rid", "."] },
       { name := "gcr.io/cloud-builders/docker",
         args := ["push", image_tag settings0 "https://example.com/org/app.git" "rid"] }] :=
  C3_build_spec_amended settings0 env0 "https://example.com/org/app.git" "rid" "wf" "uid"
    rfl rfl rfl rfl

/-
Claim C4: the image tag.
-/

/-- The repository base name as the specification words it: the final
path segment with a trailing version-control suffix (".git") stripped
and the rest of the segment left unchanged. -/
def strip_vcs_suffix (seg : String) : String :=
  if ['.', 'g', 'i', 't'].isSuffixOf seg.data then
    String.mk (seg.data.take (seg.data.length - 4))
  else seg

/-- The image tag exactly as the specification sentence describes it,
with the registry host the code uses (`docker.pkg.dev`). -/
def spec_image_tag (s : Settings) (github_url request_id : String) : String :=
  s.gcp_region ++ "-docker.pkg.dev/" ++ s.gcp_project_id ++ "/" ++
    s.gar_repository_name ++ "/" ++ strip_vcs_suffix (lastSegment github_url) ++ ":" ++ request_id

/-- Claim C4 counterexample: for a source URL whose final segment
contains ".git" other than as a trailing suffix, the code's tag
differs from the specified one — Python `replace(".git", "")` deletes
the inner occurrence ("u.github.io" becomes "uhub.io") while the
specification leaves the segment unchanged. -/
theorem C4_image_tag_not_suffix_strip_cex :
    image_tag settings0 "https://github.com/u/u.github.io" "id" ≠
      spec_image_tag settings0 "https://github.com/u/u.github.io" "id" := by decide

/-- The amended repository base name: every occurrence of the
substring ".git" is removed from the final path segment, scanning left
to right, not only a trailing suffix. -/
def remove_git_every_occurrence : List Char → List Char
  | [] => []
  | c :: rest =>
    if ['.', 'g', 'i', 't'].isPrefixOf (c :: rest) then
      remove_git_every_occurrence (rest.drop 3)
    else c :: remove_git_every_occurrence rest
termination_by l => l.length
decreasing_by
  · simp only [List.length_drop, List.length_cons]
    omega
  · simp only [List.length_cons]
    omega

/-- The code's removal (the pattern-matching embedding of Python
`replace(".git", "")`) agrees with the amended description: delete
every non-overlapping occurrence of ".git", left to right. -/
theorem removeGitAux_removes_every_occurrence (l : List Char) :
    removeGitAux l = remove_git_every_occurrence l := by
  induction l using removeGitAux.induct with
  | case1 rest ih =>
      rw [removeGitAux, remove_git_every_occurrence]
      simp [List.isPrefixOf, ih]
  | case2 c rest hne ih =>
      have hpf : (['.', 'g', 'i', 't'].isPrefixOf (c :: rest)) = false := by
        cases hp : ['.', 'g', 'i', 't'].isPrefixOf (c :: rest)
        · rfl
        · obtain ⟨t2, ht⟩ := List.isPrefixOf_iff_prefix.mp hp
          injection ht with h1 h2
          exact absurd h2.symm (fun h => hne t2 h1.symm h)
      rw [remove_git_every_occurrence, hpf]
      rw [removeGitAux.eq_def]
      split
      · rename_i rest2 heq
        injection heq with h1 h2
        exact absurd h2 (fun h => hne rest2 h1 h)
      · rename_i c2 rest2 hne2 heq
        injection heq with h1 h2
        subst h1; subst h2
        simp [ih]
      · rename_i heq
        exact absurd heq (by simp)
  | case3 => rw [remove_git_every_occurrence, removeGitAux]

/-- Claim C4 as amended: for every source URL and request identifier
the submitted image tag is
`{region}-docker.pkg.dev/{projectId}/{repositoryName}/{repoBaseName}:{requestId}`
where `repoBaseName` is the source URL's final path segment with every
occurrence of the substring ".git" removed (scanning left to right),
not only a trailing suffix. -/
theorem C4_image_tag_amended (s : Settings) (github_url request_id : String) :
    image_tag s github_url request_id =
      s.gcp_region ++ "-docker.pkg.dev/" ++ s.gcp_project_id ++ "/" ++
        s.gar_repository_name ++ "/" ++
        String.mk (remove_git_every_occurrence (lastSegment github_url).data) ++
        ":" ++ request_id := by
  rw [image_tag, repo_name, replace_git, removeGitAux_removes_every_occurrence]

/-
Claim C8: the archiver.
-/

mutual
/-- Entries collected by walking a tree rooted at `base ++ ext`, with
entry names taken relative to `base`, are the files under the tree
prefixed by `ext`. -/
theorem walk_entries (base ext : List String) (t : FSTree) :
    ((walk (base ++ ext) t).flatMap fun rf =>
      rf.2.map fun fc => ((rf.1 ++ [fc.1]).drop base.length, fc.2)) =
    (files_under t).map fun pc => (ext ++ pc.1, pc.2) := by
  cases t with
  | node files dirs =>
      rw [walk, files_under]
      simp only [List.flatMap_cons, List.map_append, List.map_map]
      rw [walkDirs_entries base ext dirs]
      congr 1
      apply List.map_congr_left
      intro fc _
      simp [List.append_assoc, List.drop_left]

theorem walkDirs_entries (base ext : List String) (ds : FSDirs) :
    ((walkDirs (base ++ ext) ds).flatMap fun rf =>
      rf.2.map fun fc => ((rf.1 ++ [fc.1]).drop base.length, fc.2)) =
    (files_under_dirs ds).map fun pc => (ext ++ pc.1, pc.2) := by
  cases ds with
  | nil => rw [walkDirs, files_under_dirs]; rfl
  | cons d t rest =>
      rw [walkDirs, files_under_dirs]
      simp only [List.flatMap_append, List.map_append, List.map_map]
      congr 1
      · have h : (base ++ ext) ++ [d] = base ++ (ext ++ [d]) := by
          rw [List.append_assoc]
        rw [h, walk_entries base (ext ++ [d]) t]
        apply List.map_congr_left
        intro pc _
        simp [Function.comp, List.append_assoc]
      · exact walkDirs_entries base ext rest
end

/-- Claim C8: archiving a directory produces exactly one entry per
regular file reachable under it, named by the file's path relative to
the directory — no exclusions, no nesting, no path rewriting — and
carrying the file's bytes as content. -/
theorem C8_zip_archive_entries (folder_path : List String) (tree : FSTree) :
    zip_directory folder_path tree = files_under tree := by
  have h := walk_entries folder_path [] tree
  rw [List.append_nil] at h
  rw [zip_directory]
  simp only [relpath]
  rw [h]
  simp

/-
Claim C9: merge-upsert semantics of the ledger write.
-/

theorem getVal_none_iff (m : Doc) (k : String) :
    getVal m k = none ↔ k ∉ m.map Prod.fst := by
  induction m with
  | nil => simp [getVal]
  | cons p m ih =>
      rw [getVal, List.map_cons]
      by_cases h : p.1 = k
      · subst h
        simp
      · rw [if_neg h, ih, List.mem_cons]
        have hne : ¬ k = p.1 := fun e => h e.symm
        constructor
        · intro hh hor
          rcases hor with h1 | h2
          · exact hne h1
          · exact hh h2
        · intro hh h2
          exact hh (Or.inr h2)

theorem getVal_map_set_self (d : Doc) (k : String) (v : FSVal)
    (h : (getVal d k).isSome = true) :
    getVal (d.map fun p => if p.1 = k then (k, v) else p) k = some v := by
  induction d with
  | nil => simp [getVal] at h
  | cons p d ih =>
      by_cases hp : p.1 = k
      · simp [getVal, hp]
      · simp [getVal, hp] at h ⊢
        exact ih h

theorem getVal_map_set_other (d : Doc) (k : String) (v : FSVal) (k2 : String)
    (h : k2 ≠ k) :
    getVal (d.map fun p => if p.1 = k then (k, v) else p) k2 = getVal d k2 := by
  induction d with
  | nil => simp
  | cons p d ih =>
      by_cases hp : p.1 = k
      · have hk : ¬ (k = k2) := fun hh => h hh.symm
        have hp2 : ¬ (p.1 = k2) := fun e => hk (hp.symm.trans e)
        simp [getVal, hp, hp2, hk, ih]
      · simp [getVal, hp, ih]

theorem getVal_append_single_self (d : Doc) (k : String) (v : FSVal)
    (h : getVal d k = none) :
    getVal (d ++ [(k, v)]) k = some v := by
  induction d with
  | nil => simp [getVal]
  | cons p d ih =>
      by_cases hp : p.1 = k
      · simp [getVal, hp] at h
      · simp [getVal, hp] at h ⊢
        exact ih h

theorem getVal_append_single_other (d : Doc) (k : String) (v : FSVal) (k2 : String)
    (h : k2 ≠ k) :
    getVal (d ++ [(k, v)]) k2 = getVal d k2 := by
  induction d with
  | nil =>
      have hk : ¬ (k = k2) := fun hh => h hh.symm
      simp [getVal, hk]
  | cons p d ih =>
      by_cases hp : p.1 = k2
      · simp [getVal, hp]
      · simp [getVal, hp, ih]

theorem getVal_setKey_self (d : Doc) (k : String) (v : FSVal) :
    getVal (setKey d k v) k = some v := by
  unfold setKey
  split
  · exact getVal_map_set_self d k v (by assumption)
  · rename_i h
    refine getVal_append_single_self d k v ?_
    cases hg : getVal d k
    · rfl
    · rw [hg] at h
      simp at h

theorem getVal_setKey_other (d : Doc) (k : String) (v : FSVal) (k2 : String)
    (h : k2 ≠ k) :
    getVal (setKey d k v) k2 = getVal d k2 := by
  unfold setKey
  split
  · exact getVal_map_set_other d k v k2 h
  · exact getVal_append_single_other d k v k2 h

theorem getVal_dict_update_none (d m : Doc) (k : String) :
    getVal m k = none → getVal (dict_update d m) k = getVal d k := by
  induction m generalizing d with
  | nil => intro _; rw [dict_update]
  | cons p m ih =>
      intro h
      have hp : ¬ (p.1 = k) := by
        intro hp
        simp [getVal, hp] at h
      rw [dict_update, ih (setKey d p.1 p.2) (by simpa [getVal, hp] using h)]
      exact getVal_setKey_other d p.1 p.2 k (fun hh => hp hh.symm)

theorem getVal_dict_update_some (d m : Doc) (k : String) (v : FSVal) :
    (m.map Prod.fst).Nodup → getVal m k = some v →
    getVal (dict_update d m) k = some v := by
  induction m generalizing d with
  | nil => intro _ h; simp [getVal] at h
  | cons p m ih =>
      intro hnd h
      rw [List.map_cons, List.nodup_cons] at hnd
      rw [dict_update]
      by_cases hp : p.1 = k
      · have hv : p.2 = v := by
          simp only [getVal, if_pos hp] at h
          exact Option.some.inj h
        have hnm : getVal m k = none := by
          rw [getVal_none_iff, ← hp]
          exact hnd.1
        rw [getVal_dict_update_none (setKey d p.1 p.2) m k hnm, hp, hv]
        exact getVal_setKey_self d k v
      · exact ih (setKey d p.1 p.2) hnd.2 (by simpa [getVal, hp] using h)

theorem nodup_keys_setKey (d : Doc) (k : String) (v : FSVal)
    (h : (d.map Prod.fst).Nodup) : ((setKey d k v).map Prod.fst).Nodup := by
  unfold setKey
  split
  · have hkeys : (d.map fun p => if p.1 = k then (k, v) else p).map Prod.fst =
        d.map Prod.fst := by
      rw [List.map_map]
      apply List.map_congr_left
      intro p _
      by_cases hp : p.1 = k
      · simp [hp]
      · simp [hp]
    rw [hkeys]
    exact h
  · rename_i hnone
    have hn : getVal d k = none := by
      cases hg : getVal d k
      · rfl
      · rw [hg] at hnone
        simp at hnone
    have hk : k ∉ d.map Prod.fst := (getVal_none_iff d k).mp hn
    rw [List.map_append]
    simp [List.nodup_append, h, hk]

theorem nodup_keys_dict_update (d m : Doc)
    (h : (d.map Prod.fst).Nodup) : ((dict_update d m).map Prod.fst).Nodup := by
  induction m generalizing d with
  | nil => rw [dict_update]; exact h
  | cons p m ih =>
      rw [dict_update]
      exact ih (setKey d p.1 p.2) (nodup_keys_setKey d p.1 p.2 h)

theorem nodup_keys_write_data (status : String) (md : Doc) (now : Nat) :
    ((write_data status md now).map Prod.fst).Nodup := by
  rw [write_data]
  by_cases he : md.isEmpty = true
  · rw [if_pos he]
    simp
  · rw [if_neg he]
    exact nodup_keys_dict_update _ md (by simp)

/-- Claim C9 counterexample: when the supplied metadata itself contains
a "timestamp" key, the stored timestamp is the metadata value, not the
current time of the write (`data.update(metadata)` lets metadata win),
so a write does not always stamp the current time. -/
theorem C9_timestamp_not_stamped_cex :
    getVal (update_firestore_status [] "SUCCESS" [("timestamp", FSVal.time 5)] 7)
        "timestamp" = some (FSVal.time 5) ∧
    some (FSVal.time 5) ≠ some (FSVal.time 7) := ⟨rfl, by decide⟩

/-- Claim C9 as amended: every ledger write is a merge-upsert — fields
not supplied by the write persist unchanged, every supplied metadata
field is stored with its supplied value, and the status and the
current-time timestamp are stored except when the metadata itself
supplies that key, in which case the metadata value takes precedence. -/
theorem C9_merge_upsert_amended (doc : Doc) (status : String) (md : Doc) (now : Nat)
    (hnd : (md.map Prod.fst).Nodup) :
    (∀ k, k ≠ "status" → k ≠ "timestamp" → getVal md k = none →
      getVal (update_firestore_status doc status md now) k = getVal doc k) ∧
    (∀ k v, getVal md k = some v →
      getVal (update_firestore_status doc status md now) k = some v) ∧
    (getVal md "status" = none →
      getVal (update_firestore_status doc status md now) "status" = some (FSVal.str status)) ∧
    (getVal md "timestamp" = none →
      getVal (update_firestore_status doc status md now) "timestamp" = some (FSVal.time now)) := by
  refine ⟨?_, ?_, ?_, ?_⟩
  · intro k hks hkt hmd
    have h1 : ¬ ("status" = k) := fun e => hks e.symm
    have h2 : ¬ ("timestamp" = k) := fun e => hkt e.symm
    rw [update_firestore_status]
    apply getVal_dict_update_none
    rw [write_data]
    by_cases he : md.isEmpty = true
    · rw [if_pos he]
      simp [getVal, h1, h2]
    · rw [if_neg he]
      rw [getVal_dict_update_none _ md k hmd]
      simp [getVal, h1, h2]
  · intro k v hmd
    rw [update_firestore_status]
    apply getVal_dict_update_some _ _ _ _ (nodup_keys_write_data status md now)
    rw [write_data]
    have he : md.isEmpty = false := by
      cases md
      · simp [getVal] at hmd
      · rfl
    rw [if_neg (by simp [he])]
    exact getVal_dict_update_some _ md k v hnd hmd
  · intro hmd
    rw [update_firestore_status]
    apply getVal_dict_update_some _ _ _ _ (nodup_keys_write_data status md now)
    rw [write_data]
    by_cases he : md.isEmpty = true
    · rw [if_pos he]
      simp [getVal]
    · rw [if_neg he]
      rw [getVal_dict_update_none _ md _ hmd]
      simp [getVal]
  · intro hmd
    rw [update_firestore_status]
    apply getVal_dict_update_some _ _ _ _ (nodup_keys_write_data status md now)
    rw [write_data]
    by_cases he : md.isEmpty = true
    · rw [if_pos he]
      simp [getVal]
    · rw [if_neg he]
      rw [getVal_dict_update_none _ md _ hmd]
      simp [getVal]

theorem C9_merge_upsert_amended_witness :
    (([("workflow_name", FSVal.str "wf")] : Doc).map Prod.fst).Nodup ∧
    getVal (update_firestore_status [("keep", FSVal.str "v")] "IN_PROGRESS"
        [("workflow_name", FSVal.str "wf")] 3) "keep" =
      getVal [("keep", FSVal.str "v")] "keep" ∧
    getVal (update_firestore_status [("keep", FSVal.str "v")] "IN_PROGRESS"
        [("workflow_name", FSVal.str "wf")] 3) "workflow_name" = some (FSVal.str "wf") ∧
    getVal (update_firestore_status [("keep", FSVal.str "v")] "IN_PROGRESS"
        [("workflow_name", FSVal.str "wf")] 3) "status" = some (FSVal.str "IN_PROGRESS") ∧
    getVal (update_firestore_status [("keep", FSVal.str "v")] "IN_PROGRESS"
        [("workflow_name", FSVal.str "wf")] 3) "timestamp" = some (FSVal.time 3) := by
  have h := C9_merge_upsert_amended [("keep", FSVal.str "v")] "IN_PROGRESS"
    [("workflow_name", FSVal.str "wf")] 3 (by decide)
  exact ⟨by decide, h.1 "keep" (by decide) (by decide) rfl,
    h.2.1 "workflow_name" (FSVal.str "wf") rfl, h.2.2.1 rfl, h.2.2.2 rfl⟩

/-- Claim C10: a deployment submission whose request body is absent or
lacks the github_url field is rejected with HTTP 400: no PENDING record
is written to the ledger, no background pipeline task is started, and
the outcome is independent of the request identifier that would
otherwise be generated (the handler only generates one after the body
check passes). -/
theorem C10_missing_github_url_rejected (body : Option (List (String × String)))
    (rid1 rid2 : String)
    (h : body = none ∨ ∃ d, body = some d ∧ d.lookup "github_url" = none) :
    deploy body rid1 =
      { statusCode := 400, errorBody := some "Missing github_url",
        pendingWrites := [], started := [] } ∧
    deploy body rid1 = deploy body rid2 := by
  rcases h with h | ⟨d, hb, hd⟩
  · subst h
    exact ⟨rfl, rfl⟩
  · subst hb
    cases d with
    | nil => exact ⟨rfl, rfl⟩
    | cons p rest =>
        constructor
        · simp [deploy, hd]
        · simp [deploy, hd]

theorem C10_missing_github_url_rejected_witness :
    ((none : Option (List (String × String))) = none ∨
      ∃ d, (none : Option (List (String × String))) = some d ∧
        d.lookup "github_url" = none) ∧
    deploy none "a" =
      { statusCode := 400, errorBody := some "Missing github_url",
        pendingWrites := [], started := [] } ∧
    deploy none "a" = deploy none "b" :=
  ⟨Or.inl rfl, C10_missing_github_url_rejected none "a" "b" (Or.inl rfl)⟩
